import Mathlib

/-!
# Verification of the OIDC account-auth session core (`src/hbbs_http/account.rs`)

A shallow embedding of the data model, the serialization rules and the
background flow driver of the `OidcSession` module, together with theorems
settling the specification claims about it.

Conventions of the embedding:
* JSON values are modelled by the inductive `Json`; `serde_json::to_string`
  is modelled by `jsonToString` (compact rendering, serde's escaping rules).
* `url::Url` is modelled by the `String` it renders to.
* `HashMap<String, String>` is modelled by an association list, serialized
  in list order (the claims never depend on map iteration order).
* Machine integers (`i64` status discriminants, `u64` expiry) are modelled
  by `Int`; none of the verified paths can overflow them.
-/

/-- A JSON value, as produced by the serde serializers in the source. -/
inductive Json where
  | null : Json
  | bool : Bool → Json
  | int : Int → Json
  | str : String → Json
  | arr : List Json → Json
  | obj : List (String × Json) → Json

/-- Field names of a JSON object (empty for non-objects). -/
def jsonKeys : Json → List String
  | .obj l => l.map Prod.fst
  | _ => []

/-- Hexadecimal digit characters, lowercase, as used by serde_json. -/
def hexDigit (n : Nat) : Char :=
  if n < 10 then Char.ofNat (48 + n) else Char.ofNat (87 + n)

/-- serde_json's escaping of a single character inside a JSON string. -/
def escapeChar (c : Char) : String :=
  if c = '"' then "\\\""
  else if c = '\\' then "\\\\"
  else if c = Char.ofNat 8 then "\\b"
  else if c = Char.ofNat 12 then "\\f"
  else if c = '\n' then "\\n"
  else if c = '\r' then "\\r"
  else if c = '\t' then "\\t"
  else if c.toNat < 32 then
    "\\u00" ++ String.singleton (hexDigit (c.toNat / 16)) ++
      String.singleton (hexDigit (c.toNat % 16))
  else String.singleton c

/-- serde_json's rendering of a JSON string (quotes plus escaped body). -/
def escapeString (s : String) : String :=
  "\"" ++ String.join (s.toList.map escapeChar) ++ "\""

mutual

/-- Compact rendering of a JSON value, as `serde_json::to_string` emits it. -/
def jsonToString : Json → String
  | .null => "null"
  | .bool b => if b then "true" else "false"
  | .int n => toString n
  | .str s => escapeString s
  | .arr l => "[" ++ jsonArrToString l ++ "]"
  | .obj l => "\x7b" ++ jsonObjToString l ++ "\x7d"

/-- Comma-separated rendering of a JSON array body. -/
def jsonArrToString : List Json → String
  | [] => ""
  | [j] => jsonToString j
  | j :: rest => jsonToString j ++ "," ++ jsonArrToString rest

/-- Comma-separated rendering of a JSON object body. -/
def jsonObjToString : List (String × Json) → String
  | [] => ""
  | [kv] => escapeString kv.1 ++ ":" ++ jsonToString kv.2
  | kv :: rest =>
      escapeString kv.1 ++ ":" ++ jsonToString kv.2 ++ "," ++ jsonObjToString rest

end

/-- Rust's `str::contains`: `pat` occurs as a contiguous substring of `hay`. -/
def strContains (hay pat : String) : Bool :=
  hay.toList.tails.any (fun t => pat.toList.isPrefixOf t)

/-- `UserStatus` from the source: `#[repr(i64)]` with the three listed
discriminants. -/
inductive UserStatus where
  | Disabled : UserStatus
  | Normal : UserStatus
  | Unverified : UserStatus
deriving DecidableEq

/-- The `Serialize_repr` derive: a `UserStatus` serializes to its `i64`
discriminant. -/
def UserStatus.toRepr : UserStatus → Int
  | .Disabled => 0
  | .Normal => 1
  | .Unverified => -1

/-- The `Deserialize_repr` derive: an integer deserializes to the variant
with that discriminant, and any other integer is rejected. -/
def UserStatus.ofRepr (n : Int) : Option UserStatus :=
  if n = 0 then some .Disabled
  else if n = 1 then some .Normal
  else if n = -1 then some .Unverified
  else none

/-- JSON form of a `UserStatus` (an integer, via `Serialize_repr`). -/
def serializeUserStatus (s : UserStatus) : Json := .int s.toRepr

/-- `DeviceInfo` from the source (`os`, `r#type`, `name`). -/
structure DeviceInfo where
  os : String
  type : String
  name : String
deriving DecidableEq

/-- Derived `Serialize` for `DeviceInfo`: fields in declaration order;
`r#type` serializes under the name `type`. -/
def serializeDeviceInfo (d : DeviceInfo) : Json :=
  .obj [("os", .str d.os), ("type", .str d.type), ("name", .str d.name)]

/-- `WhitelistItem` from the source. -/
structure WhitelistItem where
  data : String
  info : DeviceInfo
  exp : Int
deriving DecidableEq

/-- Derived `Serialize` for `WhitelistItem`. -/
def serializeWhitelistItem (w : WhitelistItem) : Json :=
  .obj [("data", .str w.data), ("info", serializeDeviceInfo w.info),
        ("exp", .int w.exp)]

/-- `UserSettings` from the source. -/
structure UserSettings where
  email_verification : Bool
  email_alarm_notification : Bool
deriving DecidableEq

/-- Derived `Serialize` for `UserSettings`. -/
def serializeUserSettings (s : UserSettings) : Json :=
  .obj [("email_verification", .bool s.email_verification),
        ("email_alarm_notification", .bool s.email_alarm_notification)]

/-- `UserInfo` from the source; the `other` map is kept as an association
list. -/
structure UserInfo where
  settings : UserSettings
  login_device_whitelist : List WhitelistItem
  other : List (String × String)
deriving DecidableEq

/-- Derived `Serialize` for `UserInfo`. -/
def serializeUserInfo (u : UserInfo) : Json :=
  .obj [("settings", serializeUserSettings u.settings),
        ("login_device_whitelist",
          .arr (u.login_device_whitelist.map serializeWhitelistItem)),
        ("other", .obj (u.other.map (fun kv => (kv.1, Json.str kv.2))))]

/-- Serialization of an `Option<String>` field (serde: `null` or the
string). -/
def serializeOptStr : Option String → Json
  | none => .null
  | some s => .str s

/-- `UserPayload` from the source, including the transient
`ser_store_local` helper flag. -/
structure UserPayload where
  name : String
  email : Option String
  note : Option String
  status : UserStatus
  info : UserInfo
  is_admin : Bool
  third_auth_type : Option String
  ser_store_local : Bool
deriving DecidableEq

/-- The hand-written `impl serde::Serialize for UserPayload`: the minimal
two-field shape when `ser_store_local` is set, the full seven-field shape
otherwise; the flag itself is never emitted. -/
def serializeUserPayload (u : UserPayload) : Json :=
  if u.ser_store_local then
    .obj [("name", .str u.name), ("status", serializeUserStatus u.status)]
  else
    .obj [("name", .str u.name),
          ("email", serializeOptStr u.email),
          ("note", serializeOptStr u.note),
          ("status", serializeUserStatus u.status),
          ("info", serializeUserInfo u.info),
          ("is_admin", .bool u.is_admin),
          ("third_auth_type", serializeOptStr u.third_auth_type)]

/-- `OidcAuthUrl` from the source; `url::Url` is modelled by its rendered
string. -/
structure OidcAuthUrl where
  code : String
  url : String
deriving DecidableEq

/-- `AuthBody` from the source (`access_token`, `r#type`, `user`). -/
structure AuthBody where
  access_token : String
  type : String
  user : UserPayload
deriving DecidableEq

/-- `QUERY_TIMEOUT_SECS` from the source: `60 * 3`. -/
def QUERY_TIMEOUT_SECS : Nat := 60 * 3

/-- The `REQUESTING_ACCOUNT_AUTH` phase label from the source. -/
def REQUESTING_ACCOUNT_AUTH : String := "Requesting account auth"

/-- The `WAITING_ACCOUNT_AUTH` phase label from the source. -/
def WAITING_ACCOUNT_AUTH : String := "Waiting account auth"

/-- The `LOGIN_ACCOUNT_AUTH` phase label from the source. -/
def LOGIN_ACCOUNT_AUTH : String := "Login account auth"

/-- The distinguished keep-waiting poll error text from the source. -/
def NO_AUTHED_MSG : String := "No authed oidc is found"

/-- The mutable fields of the `OidcSession` struct (the HTTP client is
outside the model and `query_timeout` is the constant
`QUERY_TIMEOUT_SECS`, set once in `new` and never written again). -/
structure OidcSession where
  state_msg : String
  failed_msg : String
  code_url : Option OidcAuthUrl
  auth_body : Option AuthBody
  keep_querying : Bool
  running : Bool
deriving DecidableEq

/-- `OidcSession::new`. -/
def OidcSession.new : OidcSession :=
  { state_msg := REQUESTING_ACCOUNT_AUTH
    failed_msg := ""
    code_url := none
    auth_body := none
    keep_querying := false
    running := false }

/-- `OidcSession::set_state`. -/
def OidcSession.set_state (s : OidcSession) (m f : String) : OidcSession :=
  { s with state_msg := m, failed_msg := f }

/-- `OidcSession::reset`. -/
def OidcSession.reset (s : OidcSession) : OidcSession :=
  { s with
    state_msg := REQUESTING_ACCOUNT_AUTH
    failed_msg := ""
    keep_querying := true
    running := false
    code_url := none
    auth_body := none }

/-- `OidcSession::before_task`. -/
def OidcSession.before_task (s : OidcSession) : OidcSession :=
  { s.reset with running := true }

/-- `OidcSession::after_task`. -/
def OidcSession.after_task (s : OidcSession) : OidcSession :=
  { s with running := false }

/-- `OidcSession::auth_cancel` (the write it performs on the session). -/
def OidcSession.cancel (s : OidcSession) : OidcSession :=
  { s with keep_querying := false }

/-- `AuthResult` from the source: the snapshot returned to callers. -/
structure AuthResult where
  state_msg : String
  failed_msg : String
  url : Option String
  auth_body : Option AuthBody
deriving DecidableEq

/-- `OidcSession::get_result_`: the snapshot taken from the current
session state. -/
def OidcSession.get_result_ (s : OidcSession) : AuthResult :=
  { state_msg := s.state_msg
    failed_msg := s.failed_msg
    url := s.code_url.map (fun cu => cu.url)
    auth_body := s.auth_body }

/-- The session state every background task starts from:
`before_task` (which runs `reset`) fully determines it, whatever the
previous state was. -/
def startState : OidcSession :=
  { state_msg := REQUESTING_ACCOUNT_AUTH
    failed_msg := ""
    code_url := none
    auth_body := none
    keep_querying := true
    running := true }

/-- Modelled from the spec: the `HbbHttpResponse` envelope lives in the
`hbbs_http` module, outside the file under verification. Per the spec a
response is one of three shapes: a data payload, a provider error string,
or some other/unrecognized shape (the `Ok(_)` catch-all in the source). -/
inductive HbbHttpResponse (T : Type) where
  | Data : T → HbbHttpResponse T
  | Error : String → HbbHttpResponse T
  | Other : HbbHttpResponse T
deriving DecidableEq

/-- Outcome of one transport call: `Except.error` is a transport-level
failure (`Err` in the source), `Except.ok` a parsed envelope. -/
abbrev NetResult (T : Type) := Except String (HbbHttpResponse T)

instance {ε α : Type} [DecidableEq ε] [DecidableEq α] :
    DecidableEq (Except ε α) := fun a b =>
  match a, b with
  | .error e, .error e' =>
    if h : e = e' then isTrue (by rw [h])
    else isFalse (by intro he; injection he; contradiction)
  | .error _, .ok _ => isFalse (fun h => Except.noConfusion h)
  | .ok _, .error _ => isFalse (fun h => Except.noConfusion h)
  | .ok x, .ok y =>
    if h : x = y then isTrue (by rw [h])
    else isFalse (by intro he; injection he; contradiction)

/-- One iteration of the polling loop, as the environment presents it to
the driver: the `keep_querying` value the loop head observes (it may have
been flipped concurrently by `auth_cancel`), the `begin.elapsed()` value
(in seconds) at the loop head, and the outcome the `query` call returns. -/
structure PollStep where
  keep : Bool
  elapsed : Nat
  resp : NetResult AuthBody
deriving DecidableEq

/-- A poll iteration that is processed but leaves the loop running: the
loop condition holds and the response is a keep-waiting outcome (the
distinguished not-yet-authorized error, an unrecognized shape, or a
transport error). -/
def PollStep.isSkip (p : PollStep) : Bool :=
  p.keep && decide (p.elapsed < QUERY_TIMEOUT_SECS) &&
    (match p.resp with
     | .ok (.Data _) => false
     | .ok (.Error e) => strContains e NO_AUTHED_MSG
     | .ok .Other => true
     | .error _ => true)

/-- An observable atomic action of the background task: a local-config
write (`LocalConfig::set_option`) or a session mutation performed under
the write lock (recorded as the session state it leaves behind). -/
inductive Ev where
  | write : String → String → Ev
  | state : OidcSession → Ev
deriving DecidableEq

/-- The session states an `Ev` trace makes observable to `get_result`. -/
def evStates : List Ev → List OidcSession
  | [] => []
  | .state s :: r => s :: evStates r
  | .write _ _ :: r => evStates r

/-- The success branch of the polling loop (source lines 247-265): with
`remember_me`, write the access token, set `ser_store_local`, write the
minimally-serialized user record, clear the flag; then (in two separate
lock acquisitions) set the `LOGIN_ACCOUNT_AUTH` state and install the
auth body. Returns the emitted actions and the final session state. -/
def successEvents (remember_me : Bool) (s : OidcSession) (ab : AuthBody) :
    List Ev × OidcSession :=
  if remember_me then
    let userLocal := { ab.user with ser_store_local := true }
    let ab' := { ab with user := { userLocal with ser_store_local := false } }
    let sLogin := s.set_state LOGIN_ACCOUNT_AUTH ""
    let sBody := { sLogin with auth_body := some ab' }
    ([.write "access_token" ab.access_token,
      .write "user_info" (jsonToString (serializeUserPayload userLocal)),
      .state sLogin, .state sBody], sBody)
  else
    let sLogin := s.set_state LOGIN_ACCOUNT_AUTH ""
    let sBody := { sLogin with auth_body := some ab }
    ([.state sLogin, .state sBody], sBody)

/-- The polling loop of `auth_task` (source lines 243-297).

Each `PollStep` supplies what the loop head observes; `finalElapsed` is
the fresh `begin.elapsed()` read of the post-loop timeout check (line
289), which runs only when the loop exits by its condition. Returns
`none` when the supplied schedule ends before the loop resolves. -/
def pollLoop (remember_me : Bool) (s : OidcSession) :
    List PollStep → Nat → Option (List Ev × OidcSession)
  | [], _ => none
  | p :: rest, fin =>
    if p.keep = true ∧ p.elapsed < QUERY_TIMEOUT_SECS then
      match p.resp with
      | .ok (.Data ab) => some (successEvents remember_me s ab)
      | .ok (.Error err) =>
        if strContains err NO_AUTHED_MSG then
          pollLoop remember_me s rest fin
        else
          some ([.state (s.set_state WAITING_ACCOUNT_AUTH err)],
                s.set_state WAITING_ACCOUNT_AUTH err)
      | .ok .Other => pollLoop remember_me s rest fin
      | .error _ => pollLoop remember_me s rest fin
    else
      if QUERY_TIMEOUT_SECS ≤ fin then
        some ([.state (s.set_state WAITING_ACCOUNT_AUTH "timeout")],
              s.set_state WAITING_ACCOUNT_AUTH "timeout")
      else
        some ([], s)

/-- The message installed by `auth_task` when the initiation call does not
return a data payload (source lines 214-234). -/
def authErrText : NetResult OidcAuthUrl → String
  | .ok (.Data _) => ""
  | .ok (.Error e) => e
  | .ok .Other => "Invalid auth response"
  | .error e => e

/-- `OidcSession::auth_task` (source lines 209-297) over one flow.

`authResp` is the outcome of the initiation call, `polls` the schedule of
poll iterations, `finalElapsed` the elapsed reading of the post-loop
timeout check, and `s0` the state the task starts from (`startState`
after `before_task`). Returns the trace of observable atomic actions and
the final session state, or `none` when the poll schedule is too short to
resolve the loop. -/
def authTask (remember_me : Bool) (authResp : NetResult OidcAuthUrl)
    (polls : List PollStep) (finalElapsed : Nat) (s0 : OidcSession) :
    Option (List Ev × OidcSession) :=
  match authResp with
  | .ok (.Data cu) =>
    let s1 := s0.set_state WAITING_ACCOUNT_AUTH ""
    let s2 := { s1 with code_url := some cu }
    (pollLoop remember_me s2 polls finalElapsed).map
      (fun r => ([.state s1, .state s2] ++ r.1, r.2))
  | resp =>
    let s1 := s0.set_state REQUESTING_ACCOUNT_AUTH (authErrText resp)
    some ([.state s1], s1)

/-!
## Single-flight concurrency model (`account_auth` / `wait_stop_querying`)

`account_auth` runs, on the (single, sequential) foreground caller:
`auth_cancel()`; `wait_stop_querying()` (busy-wait until `running` is
false, sleeping 0.3s between reads); `before_task()`; `thread::spawn` of
the background task. The spawned closure runs `auth_task` — whose session
mutations never touch the `running` flag — and finishes with
`after_task()` (which clears `running`). Each lock acquisition is one
atomic step; steps of the foreground and of live background tasks
interleave arbitrarily. -/

/-- A spawned background task: the sequence of session mutations it will
perform under the write lock, each of which leaves the `running` flag
unchanged (as every mutation inside `auth_task` does); the closure's
final `after_task` is implicit in the `task_done` step. -/
structure TaskScript where
  acts : List (OidcSession → OidcSession)
  keeps_running : ∀ f ∈ acts, ∀ s, (f s).running = s.running

/-- Position of the foreground caller inside `account_auth`: not inside a
call, after `auth_cancel`, after `wait_stop_querying` observed
`running == false`, or after `before_task` (about to spawn). -/
inductive FgPhase where
  | idle : FgPhase
  | waiting : FgPhase
  | ready : FgPhase
  | armed : FgPhase
deriving DecidableEq

/-- A configuration of the whole process: the shared session state, the
background tasks that have been spawned and not yet finished, and the
foreground position. -/
structure FlowConfig where
  sess : OidcSession
  tasks : List TaskScript
  fg : FgPhase

/-- Process start: a fresh `OidcSession::new`, no tasks, foreground idle. -/
def initConfig : FlowConfig :=
  { sess := OidcSession.new, tasks := [], fg := .idle }

/-- One atomic step of the interleaved system. -/
inductive FlowStep : FlowConfig → FlowConfig → Prop where
  /-- A new `account_auth` call begins: `auth_cancel`. -/
  | cancel (s : OidcSession) (ts : List TaskScript) :
      FlowStep ⟨s, ts, .idle⟩ ⟨s.cancel, ts, .waiting⟩
  /-- `wait_stop_querying` reads `running == false` and returns (reads
  with `running == true` leave the configuration unchanged). -/
  | observe_stopped (s : OidcSession) (ts : List TaskScript)
      (h : s.running = false) :
      FlowStep ⟨s, ts, .waiting⟩ ⟨s, ts, .ready⟩
  /-- `before_task`: reset the session and set `running`. -/
  | begin_task (s : OidcSession) (ts : List TaskScript) :
      FlowStep ⟨s, ts, .ready⟩ ⟨s.before_task, ts, .armed⟩
  /-- `thread::spawn`: a new background task joins the system. -/
  | spawn (s : OidcSession) (ts : List TaskScript) (t : TaskScript) :
      FlowStep ⟨s, ts, .armed⟩ ⟨s, t :: ts, .idle⟩
  /-- A live background task performs its next session mutation. -/
  | task_act (s : OidcSession) (l1 l2 : List TaskScript)
      (t t' : TaskScript) (f : OidcSession → OidcSession)
      (fg : FgPhase) (hacts : t.acts = f :: t'.acts) :
      FlowStep ⟨s, l1 ++ t :: l2, fg⟩ ⟨f s, l1 ++ t' :: l2, fg⟩
  /-- A background task with no mutations left runs its closing
  `after_task` and exits. -/
  | task_done (s : OidcSession) (l1 l2 : List TaskScript)
      (t : TaskScript) (fg : FgPhase) (h : t.acts = []) :
      FlowStep ⟨s, l1 ++ t :: l2, fg⟩ ⟨s.after_task, l1 ++ l2, fg⟩

/-- Configurations reachable from process start. -/
inductive FlowReach : FlowConfig → Prop where
  | init : FlowReach initConfig
  | step {c c' : FlowConfig} : FlowReach c → FlowStep c c' → FlowReach c'

/-- The inductive invariant behind single-flight: at most one live task;
none while `running` is clear; none between the foreground's observation
of `running == false` and its spawn; and `running` is set when the
foreground is about to spawn. -/
def FlowInv (c : FlowConfig) : Prop :=
  c.tasks.length ≤ 1 ∧
  (c.sess.running = false → c.tasks = []) ∧
  ((c.fg = .ready ∨ c.fg = .armed) → c.tasks = []) ∧
  (c.fg = .armed → c.sess.running = true)

/-!
## Concrete fixtures for the scenario theorems -/

/-- A concrete user record used by the scenario theorems. -/
def aliceUser : UserPayload :=
  { name := "alice", email := none, note := none, status := .Normal,
    info := { settings := { email_verification := false,
                            email_alarm_notification := false },
              login_device_whitelist := [], other := [] },
    is_admin := false, third_auth_type := none, ser_store_local := false }

/-- The authorization handle of the end-to-end scenario. -/
def idpCodeUrl : OidcAuthUrl := { code := "abc", url := "https://idp/x" }

/-- The successful poll payload of the end-to-end scenario. -/
def tokBody : AuthBody :=
  { access_token := "tok", type := "bearer", user := aliceUser }

/-- A poll iteration returning the scenario's success payload. -/
def successPoll : PollStep :=
  { keep := true, elapsed := 0, resp := .ok (.Data tokBody) }

/-- The observable state of the scenario once the url is recorded. -/
def waitingUrlState : OidcSession :=
  { state_msg := WAITING_ACCOUNT_AUTH, failed_msg := "",
    code_url := some idpCodeUrl, auth_body := none,
    keep_querying := true, running := true }

/-- The observable state of the scenario between the LoggedIn phase write
and the result install. -/
def loginNoBodyState : OidcSession :=
  { waitingUrlState with state_msg := LOGIN_ACCOUNT_AUTH }

/-- The final state of the end-to-end scenario. -/
def loggedInState : OidcSession :=
  { loginNoBodyState with auth_body := some tokBody }

/-- A task script with no remaining session mutations. -/
def emptyScript : TaskScript :=
  ⟨[], fun f hf => absurd hf (List.not_mem_nil f)⟩

/-!
## Helper lemmas -/

theorem pollLoop_skip (rm : Bool) (s : OidcSession) (rest : List PollStep)
    (fin : Nat) (p : PollStep) (h : p.isSkip = true) :
    pollLoop rm s (p :: rest) fin = pollLoop rm s rest fin := by
  obtain ⟨keep, elapsed, resp⟩ := p
  simp only [PollStep.isSkip, Bool.and_eq_true, decide_eq_true_eq] at h
  obtain ⟨⟨hk, he⟩, hr⟩ := h
  simp only [pollLoop]
  rw [if_pos (And.intro hk he)]
  rcases resp with e | env
  · rfl
  · rcases env with ab | e | _
    · simp at hr
    · have hr' : strContains e NO_AUTHED_MSG = true := hr
      show (if strContains e NO_AUTHED_MSG = true then pollLoop rm s rest fin
            else some ([Ev.state (s.set_state WAITING_ACCOUNT_AUTH e)],
                       s.set_state WAITING_ACCOUNT_AUTH e)) =
          pollLoop rm s rest fin
      rw [if_pos hr']
    · rfl

theorem pollLoop_skips (rm : Bool) (s : OidcSession) (fin : Nat)
    (skips rest : List PollStep) (h : ∀ p ∈ skips, p.isSkip = true) :
    pollLoop rm s (skips ++ rest) fin = pollLoop rm s rest fin := by
  induction skips with
  | nil => rfl
  | cons p l ih =>
    rw [List.cons_append,
        pollLoop_skip rm s (l ++ rest) fin p (h p (List.mem_cons_self p l))]
    exact ih (fun q hq => h q (List.mem_cons_of_mem _ hq))

theorem pollLoop_shape (rm : Bool) (polls : List PollStep) :
    ∀ (s : OidcSession) (fin : Nat) (evs : List Ev) (sf : OidcSession),
      pollLoop rm s polls fin = some (evs, sf) →
      (evs = [] ∧ sf = s) ∨
      (∃ err, evs = [Ev.state (s.set_state WAITING_ACCOUNT_AUTH err)] ∧
              sf = s.set_state WAITING_ACCOUNT_AUTH err) ∨
      (∃ ab : AuthBody, ∃ ws : List Ev,
        evStates ws = [] ∧
        evs = ws ++ [Ev.state (s.set_state LOGIN_ACCOUNT_AUTH ""),
                     Ev.state { s.set_state LOGIN_ACCOUNT_AUTH "" with
                                auth_body := some ab }] ∧
        sf = { s.set_state LOGIN_ACCOUNT_AUTH "" with
               auth_body := some ab }) := by
  induction polls with
  | nil =>
    intro s fin evs sf h
    simp [pollLoop] at h
  | cons p rest ih =>
    intro s fin evs sf h
    obtain ⟨keep, elapsed, resp⟩ := p
    simp only [pollLoop] at h
    by_cases hc : keep = true ∧ elapsed < QUERY_TIMEOUT_SECS
    · rw [if_pos hc] at h
      rcases resp with e | env
      · exact ih s fin evs sf h
      · rcases env with ab | e | _
        · replace h : some (successEvents rm s ab) = some (evs, sf) := h
          injection h with h'
          refine Or.inr (Or.inr ?_)
          by_cases hrm : rm = true
          · subst hrm
            exact ⟨{ ab with user := { ab.user with ser_store_local := false } },
                   [Ev.write "access_token" ab.access_token,
                    Ev.write "user_info" (jsonToString (serializeUserPayload
                      { ab.user with ser_store_local := true }))],
                   rfl, (congrArg Prod.fst h').symm,
                   (congrArg Prod.snd h').symm⟩
          · have hrm' : rm = false := by
              cases rm
              · rfl
              · exact absurd rfl hrm
            subst hrm'
            exact ⟨ab, [], rfl, (congrArg Prod.fst h').symm,
                   (congrArg Prod.snd h').symm⟩
        · replace h :
              (if strContains e NO_AUTHED_MSG = true then
                pollLoop rm s rest fin
              else
                some ([Ev.state (s.set_state WAITING_ACCOUNT_AUTH e)],
                      s.set_state WAITING_ACCOUNT_AUTH e)) = some (evs, sf) := h
          by_cases hcont : strContains e NO_AUTHED_MSG = true
          · rw [if_pos hcont] at h
            exact ih s fin evs sf h
          · rw [if_neg hcont] at h
            injection h with h'
            exact Or.inr (Or.inl ⟨e, (congrArg Prod.fst h').symm,
              (congrArg Prod.snd h').symm⟩)
        · exact ih s fin evs sf h
    · rw [if_neg hc] at h
      by_cases hfin : QUERY_TIMEOUT_SECS ≤ fin
      · rw [if_pos hfin] at h
        injection h with h'
        exact Or.inr (Or.inl ⟨"timeout", (congrArg Prod.fst h').symm,
          (congrArg Prod.snd h').symm⟩)
      · rw [if_neg hfin] at h
        injection h with h'
        exact Or.inl ⟨(congrArg Prod.fst h').symm,
          (congrArg Prod.snd h').symm⟩

theorem flowInv_init : FlowInv initConfig :=
  ⟨by simp [initConfig], fun _ => rfl,
   fun hfg => by rcases hfg with h | h <;> exact FgPhase.noConfusion h,
   fun hfg => FgPhase.noConfusion hfg⟩

theorem flowInv_step {c c' : FlowConfig} (hc : FlowInv c)
    (h : FlowStep c c') : FlowInv c' := by
  obtain ⟨h1, h2, h3, h4⟩ := hc
  cases h with
  | cancel s ts =>
    refine ⟨h1, fun hr => h2 hr, ?_, ?_⟩
    · intro hfg
      rcases hfg with hfg | hfg <;> exact FgPhase.noConfusion hfg
    · intro hfg
      exact FgPhase.noConfusion hfg
  | observe_stopped s ts hrun =>
    have hts : ts = [] := h2 hrun
    subst hts
    exact ⟨by simp, fun _ => rfl, fun _ => rfl,
           fun hfg => FgPhase.noConfusion hfg⟩
  | begin_task s ts =>
    have hts : ts = [] := h3 (Or.inl rfl)
    subst hts
    exact ⟨by simp, fun _ => rfl, fun _ => rfl, fun _ => rfl⟩
  | spawn s ts t =>
    have hts : ts = [] := h3 (Or.inr rfl)
    have hrun : s.running = true := h4 rfl
    subst hts
    refine ⟨by simp, ?_, ?_, ?_⟩
    · intro hr
      rw [hrun] at hr
      exact Bool.noConfusion hr
    · intro hfg
      rcases hfg with hfg | hfg <;> exact FgPhase.noConfusion hfg
    · intro hfg
      exact FgPhase.noConfusion hfg
  | task_act s l1 l2 t t' f fg hacts =>
    have hne : l1 ++ t :: l2 ≠ [] := by simp
    have hkeeps : (f s).running = s.running :=
      t.keeps_running f (by rw [hacts]; exact List.mem_cons_self f t'.acts) s
    refine ⟨by simpa using h1, ?_, ?_, ?_⟩
    · intro hr
      rw [hkeeps] at hr
      exact absurd (h2 hr) hne
    · intro hfg
      exact absurd (h3 hfg) hne
    · intro hfg
      rw [hkeeps]
      exact h4 hfg
  | task_done s l1 l2 t fg hacts =>
    have hlen : (l1 ++ t :: l2).length ≤ 1 := h1
    have hl1 : l1 = [] := by
      cases l1 with
      | nil => rfl
      | cons a l => simp [List.length_append] at hlen
    subst hl1
    have hl2 : l2 = [] := by
      cases l2 with
      | nil => rfl
      | cons a l => simp at hlen
    subst hl2
    refine ⟨by simp, fun _ => rfl, fun _ => rfl, ?_⟩
    · intro hfg
      exact absurd (h3 (Or.inr hfg)) (by simp)

theorem flowReach_inv {c : FlowConfig} (h : FlowReach c) : FlowInv c := by
  induction h with
  | init => exact flowInv_init
  | step hr hs ih => exact flowInv_step ih hs

theorem evStates_append (a b : List Ev) :
    evStates (a ++ b) = evStates a ++ evStates b := by
  induction a with
  | nil => rfl
  | cons e r ih => cases e <;> simp [evStates, ih]

theorem authTask_fail (rm : Bool) (resp : NetResult OidcAuthUrl)
    (polls : List PollStep) (fin : Nat) (s0 : OidcSession)
    (h : ∀ cu, resp ≠ .ok (.Data cu)) :
    authTask rm resp polls fin s0 =
      some ([Ev.state (s0.set_state REQUESTING_ACCOUNT_AUTH (authErrText resp))],
            s0.set_state REQUESTING_ACCOUNT_AUTH (authErrText resp)) := by
  cases resp with
  | error e => rfl
  | ok env =>
    cases env with
    | Data cu => exact absurd rfl (h cu)
    | Error e => rfl
    | Other => rfl

/-!
## Claim theorems -/

/-- **C1.** Serializing a `UserPayload` with its store-local flag set emits
exactly the two fields `name, status`; with the flag unset it emits exactly
the seven fields `name, email, note, status, info, is_admin,
third_auth_type`; in neither shape does the output contain the
`ser_store_local` flag itself. -/
theorem user_payload_two_shapes (u : UserPayload) :
    jsonKeys (serializeUserPayload u) =
      (if u.ser_store_local then ["name", "status"]
       else ["name", "email", "note", "status", "info", "is_admin",
             "third_auth_type"]) ∧
    "ser_store_local" ∉ jsonKeys (serializeUserPayload u) := by
  by_cases h : u.ser_store_local = true
  · constructor
    · simp [serializeUserPayload, jsonKeys, h]
    · simp [serializeUserPayload, jsonKeys, h]
  · constructor
    · simp [serializeUserPayload, jsonKeys, h]
    · simp [serializeUserPayload, jsonKeys, h]

/-- **C2.** A poll response that is a provider error whose message contains
the substring "No authed oidc is found" neither terminates the polling
loop nor sets any failure message: that iteration emits no observable
action, leaves the session state unchanged, and polling continues with the
rest of the schedule. -/
theorem poll_no_authed_keeps_polling (rm : Bool) (s : OidcSession)
    (rest : List PollStep) (fin : Nat) (p : PollStep) (e : String)
    (hk : p.keep = true) (he : p.elapsed < QUERY_TIMEOUT_SECS)
    (hr : p.resp = .ok (.Error e))
    (hc : strContains e NO_AUTHED_MSG = true) :
    pollLoop rm s (p :: rest) fin = pollLoop rm s rest fin := by
  apply pollLoop_skip
  simp [PollStep.isSkip, hk, he, hr, hc]

/-- Witness for C2: a concrete keep-waiting error response is skipped. -/
theorem poll_no_authed_keeps_polling_witness :
    pollLoop false OidcSession.new
      [{ keep := true, elapsed := 5,
         resp := .ok (.Error "Custom error: No authed oidc is found yet") }]
      0 =
    pollLoop false OidcSession.new [] 0 :=
  poll_no_authed_keeps_polling false OidcSession.new [] 0
    { keep := true, elapsed := 5,
      resp := .ok (.Error "Custom error: No authed oidc is found yet") }
    "Custom error: No authed oidc is found yet"
    rfl (by decide) rfl (by decide)

/-- **C10.** `UserStatus` serializes to the signed integers 0 (Disabled),
1 (Normal) and -1 (Unverified) — not strings; deserializing a serialized
value returns the same value; and every other integer fails to
deserialize. -/
theorem user_status_codec :
    (serializeUserStatus .Disabled = .int 0 ∧
     serializeUserStatus .Normal = .int 1 ∧
     serializeUserStatus .Unverified = .int (-1)) ∧
    (∀ s : UserStatus, UserStatus.ofRepr s.toRepr = some s) ∧
    (∀ n : Int, n ≠ 0 → n ≠ 1 → n ≠ -1 → UserStatus.ofRepr n = none) := by
  refine ⟨⟨rfl, rfl, rfl⟩, ?_, ?_⟩
  · intro s
    cases s <;> rfl
  · intro n h0 h1 hm
    simp [UserStatus.ofRepr, h0, h1, hm]

/-- Witness for C10 at concrete inputs. -/
theorem user_status_codec_witness :
    UserStatus.ofRepr (UserStatus.toRepr .Unverified) = some .Unverified ∧
    UserStatus.ofRepr 2 = none :=
  ⟨user_status_codec.2.1 .Unverified,
   user_status_codec.2.2 2 (by decide) (by decide) (by decide)⟩

/-- **C3 (counterexample).** A run in which no poll attempt ever returns a
success payload, yet the task ends with failure message "denied" (the
fatal provider error of its first poll), not "timeout" — refuting the
claim as stated. -/
theorem auth_task_timeout_counterexample :
    (authTask false (.ok (.Data { code := "c", url := "u" }))
        [{ keep := true, elapsed := 1, resp := .ok (.Error "denied") }]
        2 startState).map (fun r => ((r.2).get_result_).failed_msg) =
      some "denied" ∧ ("denied" : String) ≠ "timeout" := by
  constructor
  · decide
  · decide

/-- **C3 (amended).** If initiation succeeded and the task is still polling
when the deadline arrives — every processed poll outcome is a keep-waiting
one, the final loop-head check fails, and the post-loop elapsed reading is
at or beyond the 180-second budget — then the background task ends and the
final snapshot has failure_message exactly "timeout" and no result. -/
theorem auth_task_timeout (rm : Bool) (cu : OidcAuthUrl)
    (skips : List PollStep) (pexit : PollStep) (fin : Nat)
    (hs : ∀ p ∈ skips, p.isSkip = true)
    (hexit : ¬(pexit.keep = true ∧ pexit.elapsed < QUERY_TIMEOUT_SECS))
    (hfin : QUERY_TIMEOUT_SECS ≤ fin) :
    ∃ evs sf,
      authTask rm (.ok (.Data cu)) (skips ++ [pexit]) fin startState =
        some (evs, sf) ∧
      (sf.get_result_).failed_msg = "timeout" ∧
      (sf.get_result_).auth_body = none ∧
      sf.state_msg = WAITING_ACCOUNT_AUTH := by
  simp only [authTask]
  rw [pollLoop_skips rm _ fin skips [pexit] hs]
  simp only [pollLoop]
  rw [if_neg hexit, if_pos hfin]
  exact ⟨_, _, rfl, rfl, rfl, rfl⟩

/-- Witness for C3 (amended): the deadline passes with no response ever
processed. -/
theorem auth_task_timeout_witness :
    ∃ evs sf,
      authTask false (.ok (.Data { code := "c", url := "u" }))
          [{ keep := true, elapsed := 200, resp := .ok .Other }]
          200 startState =
        some (evs, sf) ∧
      (sf.get_result_).failed_msg = "timeout" ∧
      (sf.get_result_).auth_body = none ∧
      sf.state_msg = WAITING_ACCOUNT_AUTH :=
  auth_task_timeout false { code := "c", url := "u" } []
    { keep := true, elapsed := 200, resp := .ok .Other } 200
    (fun p hp => absurd hp (List.not_mem_nil p)) (by decide) (by decide)

/-- **C4 (counterexample).** Cancellation is observed at a loop head with
no failure set, but the post-loop deadline check reads an elapsed time at
the timeout budget: the task ends with failure message "timeout", not the
empty string — refuting the claim as stated. -/
theorem auth_cancel_timeout_counterexample :
    (authTask false (.ok (.Data { code := "c", url := "u" }))
        [{ keep := false, elapsed := 179, resp := .ok .Other }]
        180 startState).map (fun r => ((r.2).get_result_).failed_msg) =
      some "timeout" ∧ ("timeout" : String) ≠ "" := by
  constructor
  · decide
  · decide

/-- **C4 (amended).** If the flow is in the Waiting phase with no failure
set (all previous poll outcomes were keep-waiting ones) and the loop head
observes the cancellation flag cleared, then — provided the timeout budget
has not elapsed at the task's post-loop deadline check — the task ends with
a snapshot whose failure message is the empty string and whose result is
absent. -/
theorem auth_cancel_silent (rm : Bool) (cu : OidcAuthUrl)
    (skips : List PollStep) (pc : PollStep) (fin : Nat)
    (hs : ∀ p ∈ skips, p.isSkip = true)
    (hk : pc.keep = false)
    (hfin : fin < QUERY_TIMEOUT_SECS) :
    ∃ evs sf,
      authTask rm (.ok (.Data cu)) (skips ++ [pc]) fin startState =
        some (evs, sf) ∧
      (sf.get_result_).failed_msg = "" ∧
      (sf.get_result_).auth_body = none ∧
      sf.state_msg = WAITING_ACCOUNT_AUTH := by
  simp only [authTask]
  rw [pollLoop_skips rm _ fin skips [pc] hs]
  simp only [pollLoop]
  rw [if_neg (fun hc => by rw [hk] at hc; exact Bool.noConfusion hc.1),
      if_neg (Nat.not_le.mpr hfin)]
  exact ⟨_, _, rfl, rfl, rfl, rfl⟩

/-- Witness for C4 (amended): cancellation observed early, flow ends
silently. -/
theorem auth_cancel_silent_witness :
    ∃ evs sf,
      authTask false (.ok (.Data { code := "c", url := "u" }))
          [{ keep := false, elapsed := 10, resp := .ok .Other }]
          10 startState =
        some (evs, sf) ∧
      (sf.get_result_).failed_msg = "" ∧
      (sf.get_result_).auth_body = none ∧
      sf.state_msg = WAITING_ACCOUNT_AUTH :=
  auth_cancel_silent false { code := "c", url := "u" } []
    { keep := false, elapsed := 10, resp := .ok .Other } 10
    (fun p hp => absurd hp (List.not_mem_nil p)) rfl (by decide)

/-- **C6 (counterexample).** A provider-reported error with empty text:
the task ends in the Requesting phase with the failure message set to the
empty string — refuting the claim's "non-empty string". -/
theorem init_failure_empty_counterexample :
    authTask false (.ok (.Error "")) [] 0 startState =
      some ([Ev.state (startState.set_state REQUESTING_ACCOUNT_AUTH "")],
            startState.set_state REQUESTING_ACCOUNT_AUTH "") ∧
    (((startState.set_state REQUESTING_ACCOUNT_AUTH "").get_result_)).failed_msg
      = "" :=
  ⟨rfl, rfl⟩

/-- **C6 (amended).** For every initiate outcome that is not a success
payload — transport error, provider-reported error string, or an
unrecognized response shape — the background task ends immediately with
the phase label still the requesting label, the failure message equal to
the provider's error text (resp. the transport error text, resp.
"Invalid auth response"), which is non-empty whenever that text is
non-empty, and the authorization url never set. -/
theorem auth_task_init_failure (rm : Bool) (resp : NetResult OidcAuthUrl)
    (polls : List PollStep) (fin : Nat)
    (h : ∀ cu, resp ≠ .ok (.Data cu)) :
    authTask rm resp polls fin startState =
      some ([Ev.state (startState.set_state REQUESTING_ACCOUNT_AUTH
                (authErrText resp))],
            startState.set_state REQUESTING_ACCOUNT_AUTH (authErrText resp)) ∧
    (((startState.set_state REQUESTING_ACCOUNT_AUTH
        (authErrText resp)).get_result_)).state_msg = REQUESTING_ACCOUNT_AUTH ∧
    (((startState.set_state REQUESTING_ACCOUNT_AUTH
        (authErrText resp)).get_result_)).failed_msg = authErrText resp ∧
    (((startState.set_state REQUESTING_ACCOUNT_AUTH
        (authErrText resp)).get_result_)).url = none ∧
    (authErrText resp ≠ "" →
      (((startState.set_state REQUESTING_ACCOUNT_AUTH
          (authErrText resp)).get_result_)).failed_msg ≠ "") :=
  ⟨authTask_fail rm resp polls fin startState h, rfl, rfl, rfl,
   fun hne => hne⟩

/-- Witness for C6 (amended): the spec's "rate limited" scenario. -/
theorem auth_task_init_failure_witness :
    (((startState.set_state REQUESTING_ACCOUNT_AUTH
        (authErrText (.ok (.Error "rate limited")))).get_result_)).failed_msg =
      "rate limited" :=
  (auth_task_init_failure false (.ok (.Error "rate limited")) [] 0
      (fun _ h' => HbbHttpResponse.noConfusion (Except.ok.inj h'))).2.2.1

/-- **C5 (counterexample).** On the success path the phase label is set to
"Login account auth" in one atomic write and the result installed only by
a second, separate write: the trace of the end-to-end scenario contains an
observable state whose snapshot has the terminal success phase label but
no result — refuting the "if and only if" as stated. -/
theorem result_iff_logged_in_counterexample :
    ∃ evs sf,
      authTask false (.ok (.Data idpCodeUrl)) [successPoll] 0 startState =
        some (evs, sf) ∧
      Ev.state loginNoBodyState ∈ evs ∧
      (loginNoBodyState.get_result_).state_msg = LOGIN_ACCOUNT_AUTH ∧
      (loginNoBodyState.get_result_).auth_body = none := by
  refine ⟨_, _, rfl, ?_, rfl, rfl⟩
  decide

/-- **C5 (amended).** At every observable point of a flow started from a
fresh task state: the snapshot's result is set only if the phase label is
the terminal success label "Login account auth"; conversely, every
observable state carrying the "Login account auth" label either has the
result set or is the gap state between the two success writes — it has no
result and is immediately followed in the trace by the write installing
its result — and at most one observable state of the run is such a gap
state. -/
theorem result_only_when_logged_in (rm : Bool)
    (authResp : NetResult OidcAuthUrl) (polls : List PollStep) (fin : Nat)
    (evs : List Ev) (sf : OidcSession)
    (h : authTask rm authResp polls fin startState = some (evs, sf)) :
    (∀ t ∈ startState :: evStates evs,
      ((t.get_result_).auth_body ≠ none →
        (t.get_result_).state_msg = LOGIN_ACCOUNT_AUTH) ∧
      ((t.get_result_).state_msg = LOGIN_ACCOUNT_AUTH →
        (t.get_result_).auth_body ≠ none ∨
        (t.auth_body = none ∧ ∃ ab : AuthBody,
          [Ev.state t, Ev.state { t with auth_body := some ab }] <:+: evs))) ∧
    (startState :: evStates evs).countP
        (fun t => decide (t.state_msg = LOGIN_ACCOUNT_AUTH) &&
                  t.auth_body.isNone) ≤ 1 := by
  have hreq : ¬(REQUESTING_ACCOUNT_AUTH = LOGIN_ACCOUNT_AUTH) := by decide
  have hwait : ¬(WAITING_ACCOUNT_AUTH = LOGIN_ACCOUNT_AUTH) := by decide
  by_cases hdata : ∃ cu, authResp = .ok (.Data cu)
  · obtain ⟨cu, rfl⟩ := hdata
    simp only [authTask] at h
    obtain ⟨⟨evs', sf'⟩, hpoll, heq⟩ := Option.map_eq_some'.mp h
    have hevs :
        evs = [Ev.state (startState.set_state WAITING_ACCOUNT_AUTH ""),
               Ev.state { startState.set_state WAITING_ACCOUNT_AUTH "" with
                          code_url := some cu }] ++ evs' :=
      (congrArg Prod.fst heq).symm
    subst hevs
    rcases pollLoop_shape rm polls _ fin evs' sf' hpoll with
      ⟨rfl, _⟩ | ⟨err, rfl, _⟩ | ⟨ab, ws, hws, rfl, _⟩
    · constructor
      · intro t ht
        simp only [List.mem_cons, evStates_append, evStates,
                   List.not_mem_nil, or_false] at ht
        rcases ht with rfl | rfl | rfl
        · exact ⟨fun hb => absurd rfl hb, fun h2 => absurd h2 hreq⟩
        · exact ⟨fun hb => absurd rfl hb, fun h2 => absurd h2 hwait⟩
        · exact ⟨fun hb => absurd rfl hb, fun h2 => absurd h2 hwait⟩
      · exact Nat.zero_le 1
    · constructor
      · intro t ht
        simp only [List.mem_cons, evStates_append, evStates,
                   List.not_mem_nil, or_false] at ht
        rcases ht with rfl | rfl | rfl | rfl
        · exact ⟨fun hb => absurd rfl hb, fun h2 => absurd h2 hreq⟩
        · exact ⟨fun hb => absurd rfl hb, fun h2 => absurd h2 hwait⟩
        · exact ⟨fun hb => absurd rfl hb, fun h2 => absurd h2 hwait⟩
        · exact ⟨fun hb => absurd rfl hb, fun h2 => absurd h2 hwait⟩
      · exact Nat.zero_le 1
    · have hobs :
          startState :: evStates
              ([Ev.state (startState.set_state WAITING_ACCOUNT_AUTH ""),
                Ev.state { startState.set_state WAITING_ACCOUNT_AUTH "" with
                           code_url := some cu }] ++
               (ws ++ [Ev.state (({ startState.set_state WAITING_ACCOUNT_AUTH
                           "" with code_url := some cu }).set_state
                         LOGIN_ACCOUNT_AUTH ""),
                       Ev.state { ({ startState.set_state WAITING_ACCOUNT_AUTH
                           "" with code_url := some cu }).set_state
                         LOGIN_ACCOUNT_AUTH "" with
                         auth_body := some ab }])) =
            [startState,
             startState.set_state WAITING_ACCOUNT_AUTH "",
             { startState.set_state WAITING_ACCOUNT_AUTH "" with
               code_url := some cu },
             ({ startState.set_state WAITING_ACCOUNT_AUTH "" with
                code_url := some cu }).set_state LOGIN_ACCOUNT_AUTH "",
             { ({ startState.set_state WAITING_ACCOUNT_AUTH "" with
                  code_url := some cu }).set_state LOGIN_ACCOUNT_AUTH "" with
               auth_body := some ab }] := by
        rw [evStates_append, evStates_append, hws]
        rfl
      constructor
      · intro t ht
        rw [hobs] at ht
        simp only [List.mem_cons, List.not_mem_nil, or_false] at ht
        rcases ht with rfl | rfl | rfl | rfl | rfl
        · exact ⟨fun hb => absurd rfl hb, fun h2 => absurd h2 hreq⟩
        · exact ⟨fun hb => absurd rfl hb, fun h2 => absurd h2 hwait⟩
        · exact ⟨fun hb => absurd rfl hb, fun h2 => absurd h2 hwait⟩
        · refine ⟨fun hb => absurd rfl hb, fun _ => Or.inr ⟨rfl, ab, ?_⟩⟩
          refine List.IsSuffix.isInfix
            ⟨[Ev.state (startState.set_state WAITING_ACCOUNT_AUTH ""),
              Ev.state { startState.set_state WAITING_ACCOUNT_AUTH "" with
                         code_url := some cu }] ++ ws, ?_⟩
          rw [List.append_assoc]
        · exact ⟨fun _ => rfl, fun _ => Or.inl (Option.some_ne_none ab)⟩
      · rw [hobs]
        exact Nat.le_refl 1
  · rw [authTask_fail rm authResp polls fin startState
          (fun cu hcu => hdata ⟨cu, hcu⟩)] at h
    injection h with h'
    have hevs : evs = [Ev.state (startState.set_state REQUESTING_ACCOUNT_AUTH
        (authErrText authResp))] := (congrArg Prod.fst h').symm
    subst hevs
    constructor
    · intro t ht
      simp only [List.mem_cons, evStates, List.not_mem_nil, or_false] at ht
      rcases ht with rfl | rfl
      · exact ⟨fun hb => absurd rfl hb, fun h2 => absurd h2 hreq⟩
      · exact ⟨fun hb => absurd rfl hb, fun h2 => absurd h2 hreq⟩
    · exact Nat.zero_le 1

/-- Witness for C5 (amended): the final state of the end-to-end scenario
has its result set, and its phase label is indeed "Login account auth". -/
theorem result_only_when_logged_in_witness :
    (loggedInState.get_result_).state_msg = LOGIN_ACCOUNT_AUTH :=
  ((result_only_when_logged_in false (.ok (.Data idpCodeUrl)) [successPoll] 0
      _ _ rfl).1 loggedInState (by decide)).1 (by decide)

/-- **C7.** On a successful poll with remember_me, the task emits exactly
two local-config writes — the access token and the user record serialized
in the minimal store-local shape — and both precede, in the task's atomic
action order, the write that makes the LoggedIn phase observable; the
store-local flag is reset before the result is installed, so the session's
stored record carries `ser_store_local = false` and serializes in the full
seven-field shape. -/
theorem auth_task_remember_me (cu : OidcAuthUrl) (skips : List PollStep)
    (ps : PollStep) (fin : Nat) (ab : AuthBody)
    (hs : ∀ p ∈ skips, p.isSkip = true)
    (hk : ps.keep = true) (he : ps.elapsed < QUERY_TIMEOUT_SECS)
    (hr : ps.resp = .ok (.Data ab)) :
    authTask true (.ok (.Data cu)) (skips ++ [ps]) fin startState =
      some ([Ev.state (startState.set_state WAITING_ACCOUNT_AUTH ""),
             Ev.state { startState.set_state WAITING_ACCOUNT_AUTH "" with
                        code_url := some cu },
             Ev.write "access_token" ab.access_token,
             Ev.write "user_info" (jsonToString (serializeUserPayload
               { ab.user with ser_store_local := true })),
             Ev.state ({ startState.set_state WAITING_ACCOUNT_AUTH "" with
                         code_url := some cu }.set_state
                       LOGIN_ACCOUNT_AUTH ""),
             Ev.state { { startState.set_state WAITING_ACCOUNT_AUTH "" with
                          code_url := some cu }.set_state
                        LOGIN_ACCOUNT_AUTH "" with
                        auth_body := some { ab with user :=
                          { ab.user with ser_store_local := false } } }],
            { { startState.set_state WAITING_ACCOUNT_AUTH "" with
                code_url := some cu }.set_state LOGIN_ACCOUNT_AUTH "" with
              auth_body := some { ab with user :=
                { ab.user with ser_store_local := false } } }) ∧
    jsonKeys (serializeUserPayload { ab.user with ser_store_local := true }) =
      ["name", "status"] ∧
    jsonKeys (serializeUserPayload { ab.user with ser_store_local := false }) =
      ["name", "email", "note", "status", "info", "is_admin",
       "third_auth_type"] := by
  obtain ⟨keep, elapsed, resp⟩ := ps
  replace hk : keep = true := hk
  replace he : elapsed < QUERY_TIMEOUT_SECS := he
  replace hr : resp = .ok (.Data ab) := hr
  subst hr
  refine ⟨?_, rfl, rfl⟩
  simp only [authTask]
  rw [pollLoop_skips true _ fin skips
      [{ keep := keep, elapsed := elapsed, resp := .ok (.Data ab) }] hs]
  simp only [pollLoop]
  rw [if_pos (And.intro hk he)]
  rfl

/-- Witness for C7: the concrete scenario's stored result has the flag
reset to the full shape. -/
theorem auth_task_remember_me_witness :
    (authTask true (.ok (.Data idpCodeUrl)) [successPoll] 0 startState).map
        (fun r => ((r.2).get_result_).auth_body) =
      some (some { tokBody with user :=
        { aliceUser with ser_store_local := false } }) := by
  have h := auth_task_remember_me idpCodeUrl [] successPoll 0 tokBody
      (fun p hp => absurd hp (List.not_mem_nil p)) rfl (by decide) rfl
  rw [List.nil_append] at h
  rw [h.1]
  rfl

/-- **C8 (counterexample).** In the claim's scenario the snapshots carry
the code's phase labels "Waiting account auth" and "Login account auth" —
not the claim's literal strings "Waiting..." and "LoggedIn". -/
theorem end_to_end_labels_counterexample :
    ∃ evs sf,
      authTask false (.ok (.Data idpCodeUrl)) [successPoll] 0 startState =
        some (evs, sf) ∧
      Ev.state waitingUrlState ∈ evs ∧
      (waitingUrlState.get_result_).url = some "https://idp/x" ∧
      (waitingUrlState.get_result_).state_msg ≠ "Waiting..." ∧
      (sf.get_result_).state_msg ≠ "LoggedIn" := by
  refine ⟨_, _, rfl, ?_, rfl, ?_, ?_⟩ <;> decide

/-- **C8 (amended).** The end-to-end scenario with the code's actual phase
labels: after initiate returns code "abc" and url "https://idp/x", the
snapshot once the url is recorded has url "https://idp/x" and state
message "Waiting account auth"; after the successful poll the final
snapshot has state message "Login account auth" and result access_token
"tok". -/
theorem end_to_end_scenario :
    ∃ evs sf,
      authTask false (.ok (.Data idpCodeUrl)) [successPoll] 0 startState =
        some (evs, sf) ∧
      Ev.state waitingUrlState ∈ evs ∧
      (waitingUrlState.get_result_).url = some "https://idp/x" ∧
      (waitingUrlState.get_result_).state_msg = WAITING_ACCOUNT_AUTH ∧
      (sf.get_result_).state_msg = LOGIN_ACCOUNT_AUTH ∧
      ((sf.get_result_).auth_body.map (fun b => b.access_token)) =
        some "tok" := by
  refine ⟨_, _, rfl, ?_, rfl, rfl, rfl, rfl⟩
  decide

/-- **C9.** Single-flight: `account_auth` first signals cancellation, then
busy-waits until the previous background task has fully exited (`running`
observed false), then resets the session state, and only then spawns the
new task; under this discipline every reachable configuration has at most
one live background task, so at most one task is ever mutating the shared
session state. -/
theorem single_flight {c : FlowConfig} (h : FlowReach c) :
    c.tasks.length ≤ 1 :=
  (flowReach_inv h).1

/-- Witness for C9: the configuration reached by one full `account_auth`
call (cancel, observe stopped, reset, spawn) has exactly one live task. -/
theorem single_flight_witness :
    (FlowConfig.mk ((OidcSession.new.cancel).before_task) [emptyScript]
        FgPhase.idle).tasks.length ≤ 1 :=
  single_flight
    (FlowReach.step
      (FlowReach.step
        (FlowReach.step
          (FlowReach.step FlowReach.init
            (FlowStep.cancel OidcSession.new []))
          (FlowStep.observe_stopped (OidcSession.new.cancel) [] rfl))
        (FlowStep.begin_task (OidcSession.new.cancel) []))
      (FlowStep.spawn ((OidcSession.new.cancel).before_task) [] emptyScript))
